import Mathlib

/-!
Verification development for the Particle-Doodle repository.

The GPU compute shader and the CPU kinematic particle are embedded as
functions over real-valued two-dimensional vectors (idealizing the f32
arithmetic of the source), and the swapchain / frame-driver control flow
is embedded as pure state transitions and event traces.
-/

namespace ParticleDoodle

/-- Two-dimensional vector with real components, modelling GLSL `vec2` and
nalgebra `Vector2<f32>` values in idealized real arithmetic. -/
@[ext]
structure Vec2 where
  x : ℝ
  y : ℝ

namespace Vec2

/-- Componentwise addition, `a + b`. -/
noncomputable def add (a b : Vec2) : Vec2 := ⟨a.x + b.x, a.y + b.y⟩

/-- Componentwise subtraction, `a - b`. -/
noncomputable def sub (a b : Vec2) : Vec2 := ⟨a.x - b.x, a.y - b.y⟩

/-- Post-multiplication by a scalar, `v * c` (GLSL vector-times-scalar). -/
noncomputable def scale (v : Vec2) (c : ℝ) : Vec2 := ⟨v.x * c, v.y * c⟩

/-- Division by a scalar, `v / c`. -/
noncomputable def divs (v : Vec2) (c : ℝ) : Vec2 := ⟨v.x / c, v.y / c⟩

/-- GLSL `dot(a, b)`. -/
noncomputable def dot (a b : Vec2) : ℝ := a.x * b.x + a.y * b.y

/-- GLSL `length(v) = sqrt(dot(v, v))`; also nalgebra `magnitude`. -/
noncomputable def length (v : Vec2) : ℝ := Real.sqrt (dot v v)

/-- GLSL `normalize(v) = v / length(v)`; also nalgebra `normalize`. -/
noncomputable def normalize (v : Vec2) : Vec2 := divs v (length v)

/-- The zero vector. -/
noncomputable def zero : Vec2 := ⟨0, 0⟩

end Vec2

/-- GLSL `clamp(x, minVal, maxVal) = min(max(x, minVal), maxVal)`. -/
noncomputable def glslClamp (x lo hi : ℝ) : ℝ := min (max x lo) hi

/-! ## The compute shader (src/application/particles/pipeline.rs) -/

namespace compute_shader

/-- Shader constant `eps = 0.1`. -/
noncomputable def eps : ℝ := 0.1

/-- Shader constant `damping = 0.98`. -/
noncomputable def damping : ℝ := 0.98

/-- Shader constant `MAX_VEL = 5.0`. -/
noncomputable def MAX_VEL : ℝ := 5

/-- Shader layout constant `local_size_x = 64`. -/
def local_size_x : ℕ := 64

/-- One particle record: position and velocity (shader struct `Vertex`). -/
structure Vertex where
  pos : Vec2
  vel : Vec2

/-- Per-dispatch parameters (shader push constants). -/
structure PushConstants where
  enabled : Bool
  attractor : Vec2
  timestep : ℝ

/-- Shader function `clamp_to_bounds`: clamp `x` into `[-2, 2]` and `y`
into `[-1, 1]`, independently per axis. -/
noncomputable def clamp_to_bounds (pos : Vec2) : Vec2 :=
  ⟨glslClamp pos.x (-2) 2, glslClamp pos.y (-1) 1⟩

/-- Shader function `clamp_velocity`: if `dot(vel, vel) > MAX_VEL²`,
return `normalize(vel) * MAX_VEL`, else return `vel` unchanged. -/
noncomputable def clamp_velocity (vel : Vec2) : Vec2 :=
  if Vec2.dot vel vel > MAX_VEL * MAX_VEL then
    Vec2.scale (Vec2.normalize vel) MAX_VEL
  else
    vel

/-- Shader entry point `main`, acting on the record at one invocation index:
optional attractor acceleration, velocity clamp, damping, position
integration, position clamp. -/
noncomputable def main (pc : PushConstants) (vertex : Vertex) : Vertex :=
  let vel0 :=
    if pc.enabled then
      let diff := Vec2.sub pc.attractor vertex.pos
      let dir := Vec2.normalize diff
      let acceleration := Vec2.divs dir (Vec2.dot diff diff + eps)
      Vec2.add vertex.vel (Vec2.scale acceleration pc.timestep)
    else
      vertex.vel
  let vel1 := clamp_velocity vel0
  let vel2 := Vec2.scale vel1 damping
  let pos1 := Vec2.add vertex.pos (Vec2.scale vel2 pc.timestep)
  { pos := clamp_to_bounds pos1, vel := vel2 }

/-- One compute tick exactly as the five steps of C3 describe it, written
from the wording of the claim for comparison with `main`: optional attractor
acceleration using the squared distance plus `0.1`, rescale of any
velocity of magnitude above `5.0` to magnitude exactly `5.0` preserving
direction, damping by `0.98`, position integration, per-axis position
clamp into the box. -/
noncomputable def tickSpec (pc : PushConstants) (v : Vertex) : Vertex :=
  let vel1 :=
    if pc.enabled then
      let diff := Vec2.sub pc.attractor v.pos
      Vec2.add v.vel
        (Vec2.scale
          (Vec2.divs (Vec2.normalize diff) (Vec2.length diff ^ 2 + 0.1))
          pc.timestep)
    else
      v.vel
  let vel2 :=
    if Vec2.length vel1 > 5 then Vec2.scale vel1 (5 / Vec2.length vel1)
    else vel1
  let vel3 := Vec2.scale vel2 0.98
  let pos1 := Vec2.add v.pos (Vec2.scale vel3 pc.timestep)
  { pos := ⟨glslClamp pos1.x (-2) 2, glslClamp pos1.y (-1) 1⟩, vel := vel3 }

end compute_shader

/-! ## The CPU particle variant (src/application/kinematic_particle.rs) -/

namespace kinematic_particle

/-- Constant `MAX_VEL = 5.0`. -/
noncomputable def MAX_VEL : ℝ := 5

/-- Constant `DAMPING = 1.0 - 1e-5`. -/
noncomputable def DAMPING : ℝ := 1 - 1e-5

/-- A particle simulated via kinematic equations (struct `Particle`). -/
structure Particle where
  pos : Vec2
  vel : Vec2
  acc : Vec2
  lifetime : ℝ

/-- nalgebra `clamp(val, min, max)`. -/
noncomputable def naClamp (val lo hi : ℝ) : ℝ :=
  if val > lo then (if val < hi then val else hi) else lo

/-- Method `Particle::clamp_pos`: clamp both axes into `[-2, 2]`. -/
noncomputable def clamp_pos (pos : Vec2) : Vec2 :=
  ⟨naClamp pos.x (-2) 2, naClamp pos.y (-2) 2⟩

/-- Method `Particle::clamp_vel`: if the squared magnitude exceeds
`MAX_VEL²`, normalize in place and scale to `MAX_VEL`; then multiply the
velocity by `DAMPING`. -/
noncomputable def clamp_vel (vel : Vec2) : Vec2 :=
  let v1 :=
    if Vec2.dot vel vel > MAX_VEL * MAX_VEL then
      Vec2.scale (Vec2.normalize vel) MAX_VEL
    else
      vel
  Vec2.scale v1 DAMPING

/-- Method `Particle::integrate`: accumulate acceleration into velocity,
clamp (and damp) the velocity, integrate the position, clamp the position,
advance the lifetime, and reset the acceleration. -/
noncomputable def integrate (p : Particle) (time : ℝ) : Particle :=
  let vel1 := Vec2.add p.vel (Vec2.scale p.acc time)
  let vel2 := clamp_vel vel1
  let pos1 := Vec2.add p.pos (Vec2.scale vel2 time)
  { pos := clamp_pos pos1
    vel := vel2
    acc := Vec2.zero
    lifetime := p.lifetime + time }

end kinematic_particle

/-! ## The particle store (src/application/particles.rs) -/

namespace particles

/-- The hard-coded particle count in `Particles::initialize_vertices`,
`max = 262144 * 64`. -/
def vertex_count : ℕ := 262144 * 64

/-- The workgroup count of the compute dispatch in `Particles::tick`. -/
def dispatch_group_count : ℕ := 262144

/-- The vertex count of the bufferless draw in `Particles::draw`. -/
def draw_vertex_count : ℕ := 262144 * 64

/-- Angular step between consecutive records,
`step = 2 * PI / max` with `max = vertex_count`. -/
noncomputable def step : ℝ := 2 * Real.pi / (vertex_count : ℝ)

/-- The records generated by `Particles::initialize_vertices`: record `i`
has position `radius i * (cos (i * step), sin (i * step))` and zero
velocity, where `radius i` stands for the value the thread-local random
number generator returned from `gen_range(0.2..1.0)` for iteration `i`. -/
noncomputable def init_vertices (radius : ℕ → ℝ) :
    List compute_shader.Vertex :=
  (List.range vertex_count).map fun i =>
    { pos := ⟨radius i * Real.cos ((i : ℝ) * step),
              radius i * Real.sin ((i : ℝ) * step)⟩
      vel := ⟨0, 0⟩ }

/-- Constant `WORLD_SIZE = 2.0` in `Particles::rebuild_swapchain_resources`. -/
noncomputable def WORLD_SIZE : ℝ := 2

/-- nalgebra `Matrix4::new_orthographic(left, right, bottom, top, znear,
zfar)` as a real 4×4 matrix. -/
noncomputable def new_orthographic (left right bottom top znear zfar : ℝ) :
    Matrix (Fin 4) (Fin 4) ℝ :=
  Matrix.of
    ![![2 / (right - left), 0, 0, -(right + left) / (right - left)],
      ![0, 2 / (top - bottom), 0, -(top + bottom) / (top - bottom)],
      ![0, 0, -2 / (zfar - znear), -(zfar + znear) / (zfar - znear)],
      ![0, 0, 0, 1]]

/-- The projection matrix `Particles::rebuild_swapchain_resources` computes
for a swapchain extent `width × height`: the aspect ratio scales
`WORLD_SIZE` into the world width, and the orthographic matrix is built
afresh from it. -/
noncomputable def projection_for (width height : ℕ) :
    Matrix (Fin 4) (Fin 4) ℝ :=
  let aspect := (width : ℝ) / (height : ℝ)
  let world_width := aspect * WORLD_SIZE
  new_orthographic (-world_width / 2) (world_width / 2)
    (WORLD_SIZE / 2) (-WORLD_SIZE / 2) 1 (-1)

/-- The state `Particles::rebuild_swapchain_resources` maintains that the
claims are about: the projection uniform, rebuilt from the current
swapchain extent alone. -/
structure ParticlesState where
  projection : Matrix (Fin 4) (Fin 4) ℝ

/-- `Particles::rebuild_swapchain_resources`: recompute the projection from
the current swapchain extent of the display; the previous state is not read. -/
noncomputable def rebuild_swapchain_resources (_ : ParticlesState)
    (extent : ℕ × ℕ) : ParticlesState :=
  { projection := projection_for extent.1 extent.2 }

end particles

/-! ## The swapchain manager (src/display/swapchain.rs, src/display/mod.rs) -/

namespace display

/-- A presentable swapchain image; the only datum `create_framebuffers`
reads from it is its dimensions. -/
structure Image where
  dimensions : ℕ × ℕ

/-- A framebuffer: one fresh transient multisampled attachment (recorded
here by its dimensions) paired with one presentable image. -/
structure Framebuffer where
  intermediary_dimensions : ℕ × ℕ
  color : Image

/-- Function `create_framebuffers`: one framebuffer per swapchain image,
each with a fresh transient multisampled attachment sized like the image
plus the image itself. -/
def create_framebuffers (swapchain_images : List Image) : List Framebuffer :=
  swapchain_images.map fun image =>
    { intermediary_dimensions := image.dimensions, color := image }

/-- The swapchain-related fields of `Display` that the claims are about. -/
structure Display where
  swapchain_images : List Image
  framebuffer_images : List Framebuffer

/-- Construction in `Display::create`: the swapchain reports its images
and `create_framebuffers` builds the framebuffers from them. -/
def create (swapchain_images : List Image) : Display :=
  { swapchain_images
    framebuffer_images := create_framebuffers swapchain_images }

/-- `Display::rebuild_swapchain`: `recreate_with_dimensions` yields the new
swapchain images (modelled as the response of the presentation backend
for the current window size), a fresh render pass and framebuffers are built,
and all fields are replaced together. -/
def rebuild_swapchain (_ : Display) (new_images : List Image) : Display :=
  { swapchain_images := new_images
    framebuffer_images := create_framebuffers new_images }

end display

/-! ## The frame driver (src/application.rs) -/

namespace application

/-- The observable steps of `Application::render` in order. -/
inductive RenderEvent where
  | acquire
  | record
  | submit
  | present
  | waitFence
  | rebuild
deriving DecidableEq, Repr

/-- Trace of `Application::render` when `acquire_next_image` reports the
given `suboptimal` flag and every step succeeds: acquire, record the
command buffer, submit it, present, wait on the fence; then, only when
`suboptimal` was reported, rebuild the swapchain resources. -/
def render (suboptimal : Bool) : List RenderEvent :=
  [RenderEvent.acquire, RenderEvent.record, RenderEvent.submit,
   RenderEvent.present, RenderEvent.waitFence] ++
  (if suboptimal then [RenderEvent.rebuild] else [])

end application

/-! ## Upload protocol of Particles::initialize_vertices -/

namespace upload

/-- The observable steps of the one-shot transfer in
`Particles::initialize_vertices`. -/
inductive UploadEvent where
  | buildBuffer
  | signalFenceAndFlush
  | waitHost
  | returnBuffer
deriving DecidableEq, Repr

/-- Trace of the upload in `Particles::initialize_vertices`: the immutable
buffer is created, the GPU transfer is flushed behind a fence, the host
waits on that fence, and only then does the function return. -/
def init_vertices_trace : List UploadEvent :=
  [UploadEvent.buildBuffer, UploadEvent.signalFenceAndFlush,
   UploadEvent.waitHost, UploadEvent.returnBuffer]

end upload

/-- The C5 scenario store: 4 particles at angles `0, π/2, π, 3π/2`
(record `i` at angle `i * 2π/4`), radius `1.0`, zero velocity. -/
noncomputable def scenario_store : List compute_shader.Vertex :=
  (List.range 4).map fun i : ℕ =>
    { pos := ⟨1 * Real.cos ((i : ℝ) * (2 * Real.pi / 4)),
              1 * Real.sin ((i : ℝ) * (2 * Real.pi / 4))⟩
      vel := ⟨0, 0⟩ }

/-! ## Helper lemmas -/

namespace Vec2

theorem dot_self_nonneg (v : Vec2) : 0 ≤ dot v v :=
  add_nonneg (mul_self_nonneg v.x) (mul_self_nonneg v.y)

theorem dot_self_pos {v : Vec2} (h : v ≠ zero) : 0 < dot v v := by
  rcases lt_or_eq_of_le (dot_self_nonneg v) with h1 | h1
  · exact h1
  · exfalso
    apply h
    have h2 : v.x * v.x + v.y * v.y = 0 := by
      simpa [dot] using h1.symm
    have hxx : v.x * v.x = 0 :=
      le_antisymm (by linarith [mul_self_nonneg v.y]) (mul_self_nonneg v.x)
    have hyy : v.y * v.y = 0 :=
      le_antisymm (by linarith [mul_self_nonneg v.x]) (mul_self_nonneg v.y)
    ext
    · exact mul_self_eq_zero.mp hxx
    · exact mul_self_eq_zero.mp hyy

theorem dot_scale_self (v : Vec2) (c : ℝ) :
    dot (scale v c) (scale v c) = c ^ 2 * dot v v := by
  simp only [dot, scale]; ring

theorem length_le_of_dot_le {v : Vec2} {c : ℝ} (hc : 0 ≤ c)
    (h : dot v v ≤ c * c) : length v ≤ c := by
  have h1 : Real.sqrt (dot v v) ≤ Real.sqrt (c * c) := Real.sqrt_le_sqrt h
  rwa [show c * c = c ^ 2 by ring, Real.sqrt_sq hc] at h1

theorem length_sq (v : Vec2) : length v ^ 2 = dot v v :=
  Real.sq_sqrt (dot_self_nonneg v)

theorem dot_normalize_scale_self (v : Vec2) (c : ℝ) (hd : 0 < dot v v) :
    dot (scale (normalize v) c) (scale (normalize v) c) = c * c := by
  have hspos : 0 < length v := Real.sqrt_pos.mpr hd
  have hs : length v ^ 2 = dot v v := length_sq v
  have key : dot (scale (normalize v) c) (scale (normalize v) c)
      = c * c * (dot v v / length v ^ 2) := by
    simp only [dot, scale, normalize, divs]
    field_simp
    ring
  rw [key, hs, div_self hd.ne']
  ring

theorem length_le_length_of_dot_le {a b : Vec2} (h : dot a a ≤ dot b b) :
    length a ≤ length b :=
  Real.sqrt_le_sqrt h

theorem length_lt_length_of_dot_lt {a b : Vec2} (h : dot a a < dot b b) :
    length a < length b :=
  Real.sqrt_lt_sqrt (dot_self_nonneg a) h

theorem length_scale_le {v : Vec2} {b c : ℝ} (hb : 0 ≤ b) (hc : 0 ≤ c)
    (hc1 : c ≤ 1) (h : dot v v ≤ b * b) : length (scale v c) ≤ b := by
  apply length_le_of_dot_le hb
  rw [dot_scale_self]
  have hd := dot_self_nonneg v
  have hc2 : c ^ 2 ≤ 1 := by nlinarith
  calc c ^ 2 * dot v v ≤ 1 * dot v v := mul_le_mul_of_nonneg_right hc2 hd
    _ = dot v v := one_mul _
    _ ≤ b * b := h

end Vec2

theorem glslClamp_mem (x lo hi : ℝ) (h : lo ≤ hi) :
    lo ≤ glslClamp x lo hi ∧ glslClamp x lo hi ≤ hi := by
  constructor
  · exact le_min (le_max_right x lo) h
  · exact min_le_right _ _

theorem glslClamp_of_mem {x lo hi : ℝ} (h1 : lo ≤ x) (h2 : x ≤ hi) :
    glslClamp x lo hi = x := by
  unfold glslClamp
  rw [max_eq_left h1, min_eq_left h2]

namespace compute_shader

theorem dot_clamp_velocity_le (v : Vec2) :
    Vec2.dot (clamp_velocity v) (clamp_velocity v) ≤ MAX_VEL * MAX_VEL := by
  unfold clamp_velocity
  split_ifs with h
  · have hd : (0 : ℝ) < Vec2.dot v v := by
      have h5 : (0 : ℝ) < MAX_VEL * MAX_VEL := by norm_num [MAX_VEL]
      linarith
    rw [Vec2.dot_normalize_scale_self v MAX_VEL hd]
  · linarith [not_lt.mp h]

theorem dot_clamp_velocity_le_dot (v : Vec2) :
    Vec2.dot (clamp_velocity v) (clamp_velocity v) ≤ Vec2.dot v v := by
  unfold clamp_velocity
  split_ifs with h
  · have hd : (0 : ℝ) < Vec2.dot v v := by
      have h5 : (0 : ℝ) < MAX_VEL * MAX_VEL := by norm_num [MAX_VEL]
      linarith
    rw [Vec2.dot_normalize_scale_self v MAX_VEL hd]
    exact le_of_lt h
  · exact le_refl _

theorem length_clamp_velocity_le (v : Vec2) :
    Vec2.length (clamp_velocity v) ≤ MAX_VEL :=
  Vec2.length_le_of_dot_le (by norm_num [MAX_VEL]) (dot_clamp_velocity_le v)

theorem clamp_velocity_spec (w : Vec2) :
    clamp_velocity w =
      if Vec2.length w > 5 then Vec2.scale w (5 / Vec2.length w) else w := by
  have hcond : Vec2.dot w w > MAX_VEL * MAX_VEL ↔ Vec2.length w > 5 := by
    rw [MAX_VEL]
    constructor
    · intro h
      unfold Vec2.length
      exact (Real.lt_sqrt (by norm_num)).mpr (by nlinarith)
    · intro h
      have := (Real.lt_sqrt (by norm_num : (0:ℝ) ≤ 5)).mp h
      unfold Vec2.length at this
      nlinarith
  unfold clamp_velocity
  by_cases h : Vec2.length w > 5
  · rw [if_pos (hcond.mpr h), if_pos h]
    ext <;> simp only [Vec2.scale, Vec2.normalize, Vec2.divs, MAX_VEL]
      <;> ring
  · rw [if_neg (fun hc => h (hcond.mp hc)), if_neg h]

theorem clamp_velocity_zero : clamp_velocity ⟨0, 0⟩ = ⟨0, 0⟩ := by
  unfold clamp_velocity
  rw [if_neg]
  simp only [Vec2.dot, MAX_VEL]
  norm_num

theorem main_disabled_zero_vel_fixed (attr p : Vec2)
    (hx1 : -2 ≤ p.x) (hx2 : p.x ≤ 2) (hy1 : -1 ≤ p.y) (hy2 : p.y ≤ 1) :
    main ⟨false, attr, 1⟩ ⟨p, ⟨0, 0⟩⟩ = ⟨p, ⟨0, 0⟩⟩ := by
  simp only [main, clamp_to_bounds, Bool.false_eq_true, if_false,
    clamp_velocity_zero]
  have hscale : Vec2.scale ⟨0, 0⟩ damping = ⟨0, 0⟩ := by
    simp [Vec2.scale]
  rw [hscale]
  have hpos : Vec2.add p (Vec2.scale ⟨0, 0⟩ 1) = p := by
    simp [Vec2.add, Vec2.scale]
  rw [hpos]
  rw [glslClamp_of_mem hx1 hx2, glslClamp_of_mem hy1 hy2]

end compute_shader

theorem scenario_store_eq :
    scenario_store =
      [⟨⟨1, 0⟩, ⟨0, 0⟩⟩, ⟨⟨0, 1⟩, ⟨0, 0⟩⟩,
       ⟨⟨-1, 0⟩, ⟨0, 0⟩⟩, ⟨⟨0, -1⟩, ⟨0, 0⟩⟩] := by
  have c0 : Real.cos ((0 : ℝ) * (2 * Real.pi / 4)) = 1 := by
    rw [zero_mul, Real.cos_zero]
  have s0 : Real.sin ((0 : ℝ) * (2 * Real.pi / 4)) = 0 := by
    rw [zero_mul, Real.sin_zero]
  have e1 : (1 : ℝ) * (2 * Real.pi / 4) = Real.pi / 2 := by ring
  have c1 : Real.cos ((1 : ℝ) * (2 * Real.pi / 4)) = 0 := by
    rw [e1, Real.cos_pi_div_two]
  have s1 : Real.sin ((1 : ℝ) * (2 * Real.pi / 4)) = 1 := by
    rw [e1, Real.sin_pi_div_two]
  have e2 : (2 : ℝ) * (2 * Real.pi / 4) = Real.pi := by ring
  have c2 : Real.cos ((2 : ℝ) * (2 * Real.pi / 4)) = -1 := by
    rw [e2, Real.cos_pi]
  have s2 : Real.sin ((2 : ℝ) * (2 * Real.pi / 4)) = 0 := by
    rw [e2, Real.sin_pi]
  have e3 : (3 : ℝ) * (2 * Real.pi / 4) = Real.pi + Real.pi / 2 := by ring
  have c3 : Real.cos ((3 : ℝ) * (2 * Real.pi / 4)) = 0 := by
    rw [e3, Real.cos_add, Real.cos_pi, Real.sin_pi, Real.cos_pi_div_two,
      Real.sin_pi_div_two]
    ring
  have s3 : Real.sin ((3 : ℝ) * (2 * Real.pi / 4)) = -1 := by
    rw [e3, Real.sin_add, Real.cos_pi, Real.sin_pi, Real.cos_pi_div_two,
      Real.sin_pi_div_two]
    ring
  unfold scenario_store
  rw [List.range_succ, List.range_succ, List.range_succ, List.range_succ,
    List.range_zero]
  simp only [List.nil_append, List.cons_append, List.map_cons, List.map_nil]
  simp only [Nat.cast_zero, Nat.cast_one, Nat.cast_ofNat]
  rw [c0, s0, c1, s1, c2, s2, c3, s3]
  norm_num

namespace kinematic_particle

theorem naClamp_mem (val lo hi : ℝ) (h : lo ≤ hi) :
    lo ≤ naClamp val lo hi ∧ naClamp val lo hi ≤ hi := by
  unfold naClamp
  split_ifs with h1 h2
  · exact ⟨le_of_lt h1, le_of_lt h2⟩
  · exact ⟨h, le_refl hi⟩
  · exact ⟨le_refl lo, h⟩

theorem length_clamp_vel_le (v : Vec2) :
    Vec2.length (clamp_vel v) ≤ MAX_VEL := by
  unfold clamp_vel
  apply Vec2.length_scale_le (by norm_num [MAX_VEL])
    (by norm_num [DAMPING]) (by norm_num [DAMPING])
  split_ifs with h
  · have hd : (0 : ℝ) < Vec2.dot v v := by
      have h5 : (0 : ℝ) < MAX_VEL * MAX_VEL := by norm_num [MAX_VEL]
      linarith
    rw [Vec2.dot_normalize_scale_self v MAX_VEL hd]
  · linarith [not_lt.mp h]

end kinematic_particle

/-! ## Claim theorems -/

/-- C1: after every compute tick (for any prior velocity, attractor
position, enabled flag and timestep) the velocity magnitude of the particle is
at most `MAX_VEL = 5.0`; likewise for the CPU `Particle` variant after
`integrate`. -/
theorem velocity_bounded_after_tick :
    (∀ (pc : compute_shader.PushConstants) (v : compute_shader.Vertex),
      Vec2.length (compute_shader.main pc v).vel ≤ compute_shader.MAX_VEL) ∧
    (∀ (p : kinematic_particle.Particle) (time : ℝ),
      Vec2.length (kinematic_particle.integrate p time).vel
        ≤ kinematic_particle.MAX_VEL) := by
  constructor
  · intro pc v
    simp only [compute_shader.main]
    exact Vec2.length_scale_le (by norm_num [compute_shader.MAX_VEL])
      (by norm_num [compute_shader.damping])
      (by norm_num [compute_shader.damping])
      (compute_shader.dot_clamp_velocity_le _)
  · intro p time
    simp only [kinematic_particle.integrate]
    exact kinematic_particle.length_clamp_vel_le _

/-- C2: after every compute tick the position of the particle lies in the fixed
bounding box, `x ∈ [-2, 2]` and `y ∈ [-1, 1]` for the compute-shader
variant, while the CPU `Particle` variant clamps both axes into `[-2, 2]`;
the clamp is the final step of the tick. -/
theorem position_in_bounds_after_tick :
    (∀ (pc : compute_shader.PushConstants) (v : compute_shader.Vertex),
      -2 ≤ (compute_shader.main pc v).pos.x ∧
      (compute_shader.main pc v).pos.x ≤ 2 ∧
      -1 ≤ (compute_shader.main pc v).pos.y ∧
      (compute_shader.main pc v).pos.y ≤ 1) ∧
    (∀ (p : kinematic_particle.Particle) (time : ℝ),
      -2 ≤ (kinematic_particle.integrate p time).pos.x ∧
      (kinematic_particle.integrate p time).pos.x ≤ 2 ∧
      -2 ≤ (kinematic_particle.integrate p time).pos.y ∧
      (kinematic_particle.integrate p time).pos.y ≤ 2) := by
  constructor
  · intro pc v
    simp only [compute_shader.main, compute_shader.clamp_to_bounds]
    exact ⟨(glslClamp_mem _ _ _ (by norm_num)).1,
      (glslClamp_mem _ _ _ (by norm_num)).2,
      (glslClamp_mem _ _ _ (by norm_num)).1,
      (glslClamp_mem _ _ _ (by norm_num)).2⟩
  · intro p time
    simp only [kinematic_particle.integrate, kinematic_particle.clamp_pos]
    exact ⟨(kinematic_particle.naClamp_mem _ _ _ (by norm_num)).1,
      (kinematic_particle.naClamp_mem _ _ _ (by norm_num)).2,
      (kinematic_particle.naClamp_mem _ _ _ (by norm_num)).1,
      (kinematic_particle.naClamp_mem _ _ _ (by norm_num)).2⟩

/-- C3: one compute tick transforms each record by exactly the five steps
of the claim in that order — conditional attractor acceleration, velocity
clamp to magnitude `5.0` (applied whether or not attraction is enabled),
damping by `0.98` once per tick, position integration by the timestep, and
per-axis position clamp — and nothing else: the shader function `main` equals the
step-by-step specification `tickSpec` on every input. -/
theorem tick_follows_five_steps :
    ∀ (pc : compute_shader.PushConstants) (v : compute_shader.Vertex),
      compute_shader.main pc v = compute_shader.tickSpec pc v := by
  intro pc v
  simp only [compute_shader.main, compute_shader.tickSpec,
    compute_shader.clamp_to_bounds, compute_shader.eps,
    compute_shader.damping, compute_shader.clamp_velocity_spec,
    Vec2.length_sq]

/-- C4: the framebuffer count equals the swapchain image count after
construction and after every rebuild, one framebuffer per swapchain image,
and a repeated rebuild with the same backend response is idempotent and
leaves the framebuffer count equal to the image count. -/
theorem framebuffer_count_matches_image_count :
    (∀ images : List display.Image,
      (display.create images).framebuffer_images.length
        = (display.create images).swapchain_images.length) ∧
    (∀ (d : display.Display) (new_images : List display.Image),
      (display.rebuild_swapchain d new_images).framebuffer_images.length
        = (display.rebuild_swapchain d new_images).swapchain_images.length) ∧
    (∀ (d : display.Display) (imgs : List display.Image),
      display.rebuild_swapchain (display.rebuild_swapchain d imgs) imgs
        = display.rebuild_swapchain d imgs ∧
      (display.rebuild_swapchain (display.rebuild_swapchain d imgs)
        imgs).framebuffer_images.length = imgs.length) := by
  refine ⟨fun images => ?_, fun d imgs => ?_, fun d imgs => ⟨rfl, ?_⟩⟩
  all_goals
    simp [display.create, display.rebuild_swapchain,
      display.create_framebuffers]

/-- C5: one compute tick with attraction disabled and timestep `1.0` maps
the store of 4 particles at angles `0, π/2, π, 3π/2` with radius `1.0`
and zero velocity to itself: every position and every velocity is exactly
its input value. -/
theorem scenario_tick_is_identity :
    ∀ attr : Vec2,
      scenario_store.map (compute_shader.main ⟨false, attr, 1⟩)
        = scenario_store := by
  intro attr
  rw [scenario_store_eq]
  simp only [List.map_cons, List.map_nil]
  rw [compute_shader.main_disabled_zero_vel_fixed attr ⟨1, 0⟩
      (by norm_num) (by norm_num) (by norm_num) (by norm_num),
    compute_shader.main_disabled_zero_vel_fixed attr ⟨0, 1⟩
      (by norm_num) (by norm_num) (by norm_num) (by norm_num),
    compute_shader.main_disabled_zero_vel_fixed attr ⟨-1, 0⟩
      (by norm_num) (by norm_num) (by norm_num) (by norm_num),
    compute_shader.main_disabled_zero_vel_fixed attr ⟨0, -1⟩
      (by norm_num) (by norm_num) (by norm_num) (by norm_num)]

/-- C6: with attraction disabled a compute tick never increases the
velocity magnitude, and strictly decreases it for nonzero velocity: the
tick is the magnitude clamp (which never increases magnitude) followed by
multiplication by the damping factor `0.98 < 1`. -/
theorem velocity_decays_without_attraction :
    ∀ (attractor : Vec2) (timestep : ℝ) (v : compute_shader.Vertex),
      Vec2.length (compute_shader.main ⟨false, attractor, timestep⟩ v).vel
        ≤ Vec2.length v.vel ∧
      (v.vel ≠ Vec2.zero →
        Vec2.length (compute_shader.main ⟨false, attractor, timestep⟩ v).vel
          < Vec2.length v.vel) := by
  intro attractor timestep v
  simp only [compute_shader.main, Bool.false_eq_true, if_false]
  have hclamp := compute_shader.dot_clamp_velocity_le_dot v.vel
  have hnn := Vec2.dot_self_nonneg (compute_shader.clamp_velocity v.vel)
  constructor
  · apply Vec2.length_le_length_of_dot_le
    rw [Vec2.dot_scale_self]
    norm_num [compute_shader.damping]
    nlinarith
  · intro hv
    have hpos : 0 < Vec2.dot v.vel v.vel := Vec2.dot_self_pos hv
    apply Vec2.length_lt_length_of_dot_lt
    rw [Vec2.dot_scale_self]
    norm_num [compute_shader.damping]
    nlinarith

/-- Witness for C6 at the concrete input with velocity `(1, 0)`. -/
theorem velocity_decays_without_attraction_witness :
    (⟨1, 0⟩ : Vec2) ≠ Vec2.zero ∧
    Vec2.length
      (compute_shader.main ⟨false, Vec2.zero, 1⟩ ⟨⟨0, 0⟩, ⟨1, 0⟩⟩).vel
      < Vec2.length (⟨1, 0⟩ : Vec2) := by
  have hne : (⟨1, 0⟩ : Vec2) ≠ Vec2.zero := by
    intro hcontra
    have hx := congrArg Vec2.x hcontra
    norm_num [Vec2.zero] at hx
  exact ⟨hne,
    (velocity_decays_without_attraction Vec2.zero 1 ⟨⟨0, 0⟩, ⟨1, 0⟩⟩).2 hne⟩

/-- C7: when acquire reports a suboptimal swapchain the frame is still
recorded, submitted, presented and waited on, and the rebuild happens only
after that wait completes; when acquire does not report suboptimal, the
render path performs no rebuild. -/
theorem rebuild_only_after_present :
    application.render true =
      [application.RenderEvent.acquire, application.RenderEvent.record,
       application.RenderEvent.submit, application.RenderEvent.present,
       application.RenderEvent.waitFence, application.RenderEvent.rebuild] ∧
    application.RenderEvent.rebuild ∉ application.render false := by
  constructor
  · rfl
  · decide

/-- C8: initialization generates exactly `262144 * 64` records, record `i`
having position `radius i * (cos θᵢ, sin θᵢ)` with evenly spaced angle
`θᵢ = i * 2π / N` and zero velocity, where each pseudo-random radius lies
in `[0.2, 1.0)`; and the one-shot upload signals its fence, is waited on by
the host, and only then does the call return. -/
theorem init_vertices_spec (radius : ℕ → ℝ)
    (h : ∀ i, 0.2 ≤ radius i ∧ radius i < 1) :
    (particles.init_vertices radius).length = 262144 * 64 ∧
    (∀ i, i < particles.vertex_count →
      (particles.init_vertices radius)[i]? =
        some
          { pos := ⟨radius i *
                Real.cos ((i : ℝ) * (2 * Real.pi / ((262144 * 64 : ℕ) : ℝ))),
              radius i *
                Real.sin ((i : ℝ) * (2 * Real.pi / ((262144 * 64 : ℕ) : ℝ)))⟩
            vel := ⟨0, 0⟩ } ∧
      0.2 ≤ radius i ∧ radius i < 1) ∧
    upload.init_vertices_trace =
      [upload.UploadEvent.buildBuffer, upload.UploadEvent.signalFenceAndFlush,
       upload.UploadEvent.waitHost, upload.UploadEvent.returnBuffer] := by
  refine ⟨?_, ?_, rfl⟩
  · simp [particles.init_vertices, particles.vertex_count]
  · intro i hi
    refine ⟨?_, h i⟩
    unfold particles.init_vertices particles.step particles.vertex_count
    rw [List.getElem?_map]
    rw [List.getElem?_range (by simpa [particles.vertex_count] using hi)]
    rfl

/-- Witness for C8 with the constant radius function `1/2`. -/
theorem init_vertices_spec_witness :
    (0.2 : ℝ) ≤ 0.5 ∧ (0.5 : ℝ) < 1 ∧
    (particles.init_vertices (fun _ => 0.5)).length = 262144 * 64 := by
  refine ⟨by norm_num, by norm_num, ?_⟩
  exact (init_vertices_spec (fun _ => 0.5)
    (fun i => by norm_num)).1

/-- C9: after the resize sequence 800×600 → 400×300 → 800×600, the
projection matrix equals the one computed directly for 800×600: each
rebuild computes the matrix afresh from the current extent alone, so
same-extent rebuilds are idempotent and intermediate extents leave no
residue. -/
theorem projection_depends_only_on_extent :
    ∀ s : particles.ParticlesState,
      (particles.rebuild_swapchain_resources
        (particles.rebuild_swapchain_resources
          (particles.rebuild_swapchain_resources s (800, 600))
          (400, 300))
        (800, 600)).projection = particles.projection_for 800 600 := by
  intro s
  rfl

/-- C10: the hard-coded particle counts are mutually consistent — the
buffer holds `262144 * 64` records, one compute tick dispatches
`262144` workgroups of local size `64`, so the global invocation indices
`g * 64 + l` cover each record index below the capacity exactly once, and
every draw issues exactly `262144 * 64` vertices. -/
theorem particle_counts_consistent :
    particles.dispatch_group_count * compute_shader.local_size_x
      = particles.vertex_count ∧
    particles.draw_vertex_count = particles.vertex_count ∧
    ∀ i, i < particles.vertex_count →
      ∃! gl : ℕ × ℕ,
        gl.1 < particles.dispatch_group_count ∧
        gl.2 < compute_shader.local_size_x ∧
        gl.1 * compute_shader.local_size_x + gl.2 = i := by
  refine ⟨rfl, rfl, ?_⟩
  intro i hi
  simp only [particles.vertex_count] at hi
  simp only [particles.dispatch_group_count, compute_shader.local_size_x]
  refine ⟨(i / 64, i % 64), ⟨by omega, by omega, by omega⟩, ?_⟩
  rintro ⟨g, l⟩ ⟨hg, hl, he⟩
  simp only at hg hl he
  have hgeq : g = i / 64 := by omega
  have hleq : l = i % 64 := by omega
  rw [hgeq, hleq]

/-- Witness for C10 at record index 5. -/
theorem particle_counts_consistent_witness :
    5 < particles.vertex_count ∧
    ∃! gl : ℕ × ℕ,
      gl.1 < particles.dispatch_group_count ∧
      gl.2 < compute_shader.local_size_x ∧
      gl.1 * compute_shader.local_size_x + gl.2 = 5 := by
  have h5 : 5 < particles.vertex_count := by
    norm_num [particles.vertex_count]
  exact ⟨h5, particle_counts_consistent.2.2 5 h5⟩

end ParticleDoodle
